import Mathlib

/-!
Verification of the event-study analysis program (`event_study.py`).

The program loads two numeric columns from a spreadsheet, drops missing
values, truncates both series to a common length, asks for a half-width `b`
and an iteration count `c`, and then, for a sliding event pointer `a`,
fits an ordinary least squares regression of the target series on the
reference series over a 30-point estimation window and computes abnormal
returns and t-statistics over the event window `[a-b, a+b]`.

The development below embeds the program shallowly: Python integers become
`ℤ`, the floating-point series become `ℚ` (exact arithmetic; the one
genuinely irrational quantity, the standard error, is carried as its exact
rational square and exposed as a real square root), Python slicing and
indexing (including the negative-index wrap-around) are modelled
explicitly, and the failure modes of a run (no feasible range, a
`linregress` failure on a degenerate estimation window, an index error, or
a division by the zero length of an empty record list) are modelled as an
error value that aborts the run, mirroring the exception propagation of
the script.
-/

namespace EventStudy

/-- Resolve one endpoint of a Python slice `xs[start:stop]` against a list of
length `n`: negative endpoints count from the end and are clamped at 0,
non-negative endpoints are clamped at `n`. -/
def pyResolve (n : ℕ) (i : ℤ) : ℕ :=
  if i < 0 then (i + n).toNat else min i.toNat n

/-- Python slice `xs[start:stop]` (step 1), as performed on the numpy arrays
in the script (e.g. `target_index[estimation_window_start:estimation_window_end + 1]`). -/
def pySlice (xs : List ℚ) (start stop : ℤ) : List ℚ :=
  let s := pyResolve xs.length start
  let e := pyResolve xs.length stop
  (xs.drop s).take (e - s)

/-- Python `range(lo, hi)` over integers, as a list (empty when `hi ≤ lo`). -/
def pyRange (lo hi : ℤ) : List ℤ :=
  (List.range (hi - lo).toNat).map (fun (j : ℕ) => lo + (j : ℤ))

/-- Python element access `xs[i]`: a negative `i` counts from the end, and an
index outside `[-n, n)` is an `IndexError` (modelled as `none`). -/
def pyGet (xs : List ℚ) (i : ℤ) : Option ℚ :=
  if 0 ≤ i then xs[i.toNat]?
  else if 0 ≤ i + xs.length then xs[(i + xs.length).toNat]?
  else none

/-- Total version of `pyGet`; out-of-range accesses are reported separately
by the run's error model (`iterError`), so the default is never observed on
a run that completes. -/
def pyGetD (xs : List ℚ) (i : ℤ) : ℚ :=
  (pyGet xs i).getD 0

/-- `series.dropna()`: remove the missing entries of one column. -/
def dropna (col : List (Option ℚ)) : List ℚ :=
  col.filterMap id

/-- Lines 30-36 of the script: drop missing values from each column
independently, then truncate both columns to the shorter remaining
length. A row of the input table is a pair of optional cells
(`target_index`, `reference_index`). -/
def loadSeries (rows : List (Option ℚ × Option ℚ)) : List ℚ × List ℚ :=
  let t := dropna (rows.map Prod.fst)
  let r := dropna (rows.map Prod.snd)
  let n := min t.length r.length
  (t.take n, r.take n)

/-- The positions (row numbers) of the surviving entries of one column, in
order: the `j`-th surviving value of `dropna col` comes from row
`(keptRows col).get? j`. -/
def keptRows : List (Option ℚ) → List ℕ
  | [] => []
  | none :: t => (keptRows t).map Nat.succ
  | some _ :: t => 0 :: (keptRows t).map Nat.succ

/-- The input-table row that the `j`-th surviving value of a column
originates from. -/
def originRow (col : List (Option ℚ)) (j : ℕ) : Option ℕ :=
  (keptRows col)[j]?

/-- Line 47: `min_a = b` (from `a - b >= 0`). -/
def minA (b : ℤ) : ℤ := b

/-- Line 48: `max_a = n - b - 31` (from `a + b + 30 < n`). -/
def maxA (n b : ℤ) : ℤ := n - b - 31

/-- Line 72: the event pointer used by iteration `k` is `a = min_a + k`. -/
def aAt (b k : ℤ) : ℤ := minA b + k

/-- Lines 60-64: the requested iteration count `c` is clamped to
`max_a - min_a + 1` when `min_a + c - 1` would exceed `max_a`. -/
def clampedC (n b c : ℤ) : ℤ :=
  if minA b + c - 1 > maxA n b then maxA n b - minA b + 1 else c

/-- Whether the clamp warning of lines 60-64 is printed. -/
def clampReported (n b c : ℤ) : Bool :=
  decide (minA b + c - 1 > maxA n b)

/-- Line 79: `event_window_start = a - b`. -/
def eventWindowStart (a b : ℤ) : ℤ := a - b

/-- Line 80: `event_window_end = a + b`. -/
def eventWindowEnd (a b : ℤ) : ℤ := a + b

/-- Line 81: `estimation_window_start = a + b + 1`. -/
def estimationWindowStart (a b : ℤ) : ℤ := a + b + 1

/-- Line 82: `estimation_window_end = a + b + 30`. -/
def estimationWindowEnd (a b : ℤ) : ℤ := a + b + 30

/-- Line 114: the indices visited by the event-window loop,
`range(event_window_start, event_window_end + 1)`. -/
def eventIdxs (a b : ℤ) : List ℤ :=
  pyRange (eventWindowStart a b) (eventWindowEnd a b + 1)

/-- The indices covered by the estimation-window slice of lines 88-89. -/
def estIdxs (a b : ℤ) : List ℤ :=
  pyRange (estimationWindowStart a b) (estimationWindowEnd a b + 1)

/-- Lines 88-89: `xs[estimation_window_start : estimation_window_end + 1]`. -/
def estSlice (xs : List ℚ) (a b : ℤ) : List ℚ :=
  pySlice xs (estimationWindowStart a b) (estimationWindowEnd a b + 1)

/-- Are all entries of the list equal (the `x` degeneracy check of
`scipy.stats.linregress`)? -/
def allSame : List ℚ → Bool
  | [] => true
  | x :: xs => xs.all (fun v => decide (v = x))

/-- The output of `scipy.stats.linregress`, in exact arithmetic. The
standard error is carried as its exact square `sqStdErr` (the library
reports `slope_stderr = sqrt((1 - r^2) * ssym / ssxm / df)`). -/
structure RegQ where
  slope : ℚ
  intercept : ℚ
  rSquared : ℚ
  sqStdErr : ℚ
deriving DecidableEq, Repr

/-- `scipy.stats.linregress(x, y)` (line 92), in exact arithmetic: the
closed-form ordinary least squares estimator over the bias-`n` central
moments, failing (`none`, a raised `ValueError`) on empty input or on a
non-singleton `x` with all values identical. -/
def linregress (x y : List ℚ) : Option RegQ :=
  if x.length = 0 ∨ y.length = 0 then none
  else if 1 < x.length ∧ allSame x then none
  else
    let nn : ℚ := (x.length : ℚ)
    let xmean : ℚ := x.sum / nn
    let ymean : ℚ := y.sum / nn
    let ssxm : ℚ := ((x.map fun v => (v - xmean) * (v - xmean)).sum) / nn
    let ssym : ℚ := ((y.map fun v => (v - ymean) * (v - ymean)).sum) / nn
    let ssxym : ℚ := (((x.zip y).map fun p => (p.1 - xmean) * (p.2 - ymean)).sum) / nn
    let r2 : ℚ := if ssxm = 0 ∨ ssym = 0 then 0 else min 1 (ssxym * ssxym / (ssxm * ssym))
    let slope : ℚ := ssxym / ssxm
    let intercept : ℚ := ymean - slope * xmean
    let sq : ℚ := if x.length = 2 then 0 else (1 - r2) * ssym / (ssxm * (nn - 2))
    some ⟨slope, intercept, r2, sq⟩

/-- Line 92 as invoked by the script: regress the estimation-window slice of
the target series on the estimation-window slice of the reference series
(`linregress(est_reference, est_target)`). -/
def estReg (tgt ref : List ℚ) (b a : ℤ) : Option RegQ :=
  linregress (estSlice ref a b) (estSlice tgt a b)

/-- One abnormal-return record (lines 127-137). The source stores the
floating-point `t_stat = ar / std_err`; here the record carries the exact
square of the standard error and `ARRecord.tStat` recovers the stored
t-statistic as a real number. -/
structure ARRecord where
  iteration : ℤ
  a : ℤ
  b : ℤ
  idx : ℤ
  target : ℚ
  reference : ℚ
  expected : ℚ
  ar : ℚ
  sqStdErr : ℚ
deriving DecidableEq, Repr

/-- The regression standard error stored with a record, as a real number. -/
noncomputable def ARRecord.stdErr (r : ARRecord) : ℝ :=
  Real.sqrt (r.sqStdErr : ℝ)

/-- Line 125: `t_stat = ar / std_err if std_err != 0 else 0`. -/
noncomputable def ARRecord.tStat (r : ARRecord) : ℝ :=
  if r.stdErr ≠ 0 then (r.ar : ℝ) / r.stdErr else 0

/-- One regression-parameter record (lines 98-106). As in `ARRecord`, the
standard error is carried as its exact square. -/
structure ParamRec where
  iteration : ℤ
  a : ℤ
  b : ℤ
  intercept : ℚ
  slope : ℚ
  sqStdErr : ℚ
  rSquared : ℚ
deriving DecidableEq, Repr

/-- The stored regression standard error, as a real number. -/
noncomputable def ParamRec.stdErr (q : ParamRec) : ℝ :=
  Real.sqrt (q.sqStdErr : ℝ)

/-- Lines 115-137: the record appended for event-window index `i`, given the
regression parameters `p` of the current iteration. -/
def mkRecord (tgt ref : List ℚ) (b a it : ℤ) (p : RegQ) (i : ℤ) : ARRecord :=
  let targetReturn : ℚ := pyGetD tgt i
  let referenceReturn : ℚ := pyGetD ref i
  let expectedReturn : ℚ := p.intercept + p.slope * referenceReturn
  { iteration := it, a := a, b := b, idx := i,
    target := targetReturn, reference := referenceReturn,
    expected := expectedReturn, ar := targetReturn - expectedReturn,
    sqStdErr := p.sqStdErr }

/-- The abnormal-return records produced by one iteration with event
pointer `a` (empty when the regression fails, in which case the run is
aborted by `iterError` anyway). -/
def iterationRecords (tgt ref : List ℚ) (b a it : ℤ) : List ARRecord :=
  match estReg tgt ref b a with
  | none => []
  | some p => (eventIdxs a b).map (mkRecord tgt ref b a it p)

/-- Line 139: the `ar_list` accumulated during one iteration. -/
def iterationARList (tgt ref : List ℚ) (b a it : ℤ) : List ℚ :=
  (iterationRecords tgt ref b a it).map ARRecord.ar

/-- Line 144: `car = sum(ar_list)`. -/
def iterationCAR (tgt ref : List ℚ) (b a it : ℤ) : ℚ :=
  (iterationARList tgt ref b a it).sum

/-- Line 145: `aar = car / len(ar_list)` (a `ZeroDivisionError` on an empty
list is reported separately by `iterError`). -/
def iterationAAR (tgt ref : List ℚ) (b a it : ℤ) : ℚ :=
  iterationCAR tgt ref b a it / ((iterationARList tgt ref b a it).length : ℚ)

/-- The conditions under which the script raises instead of completing. -/
inductive RunError where
  /-- Lines 50-53: `min_a > max_a`, no feasible event pointer. -/
  | noFeasibleA : RunError
  /-- Line 92 raising inside iteration `k`: `linregress` on a degenerate
  (e.g. empty) estimation window. -/
  | regressionFailure (k : ℤ) : RunError
  /-- Lines 115-116 raising inside iteration `k`: an event-window index
  outside `[-n, n)`. -/
  | indexError (k : ℤ) : RunError
  /-- Line 145 raising inside iteration `k`: `len(ar_list) = 0`. -/
  | zeroDivAAR (k : ℤ) : RunError
deriving DecidableEq, Repr

/-- The first exception raised by iteration `k` with event pointer `a`,
if any: the regression runs first, then the event-window accesses, then
the AAR division. -/
def iterError (tgt ref : List ℚ) (b a k : ℤ) : Option RunError :=
  match estReg tgt ref b a with
  | none => some (RunError.regressionFailure k)
  | some _ =>
    if (eventIdxs a b).any (fun i => (pyGet tgt i).isNone || (pyGet ref i).isNone) then
      some (RunError.indexError k)
    else if (eventIdxs a b).isEmpty then
      some (RunError.zeroDivAAR k)
    else none

/-- The first exception raised by the whole run (lines 46-147): the
feasible-range check, then the iterations in order. -/
def runError (tgt ref : List ℚ) (b c : ℤ) : Option RunError :=
  if minA b > maxA (tgt.length : ℤ) b then some RunError.noFeasibleA
  else
    (List.range (clampedC (tgt.length : ℤ) b c).toNat).findSome?
      (fun (k : ℕ) => iterError tgt ref b (aAt b (k : ℤ)) (k : ℤ))

/-- The `all_results` collection (line 67, appended at line 127) of a run
that completes. -/
def allResults (tgt ref : List ℚ) (b c : ℤ) : List ARRecord :=
  ((List.range (clampedC (tgt.length : ℤ) b c).toNat).map
    (fun (k : ℕ) => iterationRecords tgt ref b (aAt b (k : ℤ)) ((k : ℤ) + 1))).flatten

/-- The regression-parameter record appended at lines 98-106. -/
def paramRec (tgt ref : List ℚ) (b a it : ℤ) : Option ParamRec :=
  (estReg tgt ref b a).map fun p =>
    { iteration := it, a := a, b := b, intercept := p.intercept,
      slope := p.slope, sqStdErr := p.sqStdErr, rSquared := p.rSquared }

/-- The `all_regression_params` collection (line 68) of a run that
completes. -/
def allParams (tgt ref : List ℚ) (b c : ℤ) : List ParamRec :=
  (List.range (clampedC (tgt.length : ℤ) b c).toNat).filterMap
    (fun (k : ℕ) => paramRec tgt ref b (aAt b (k : ℤ)) ((k : ℤ) + 1))

/-- The whole iterative run: either the first raised error (in which case
nothing is returned and nothing is saved), or the two output collections. -/
def run (tgt ref : List ℚ) (b c : ℤ) :
    Except RunError (List ARRecord × List ParamRec) :=
  match runError tgt ref b c with
  | some e => Except.error e
  | none => Except.ok (allResults tgt ref b c, allParams tgt ref b c)

/-- Modelled from the spec: the single-run mode of the system (sections 4.1
and 4.2 of the specification) is not among the files under `src/`; only the
iterative script is. Per the spec, the single-run orchestration validates
the window invariant `0 ≤ a - b` and `a + b + 30 < n` before invoking the
shared core, reports a validation failure otherwise, and produces no
output in that case. The core is the same computation the iterative
script performs for one event pointer. -/
def singleRun (tgt ref : List ℚ) (a b : ℤ) :
    Option (List ARRecord × ℚ × ℚ) :=
  if 0 ≤ eventWindowStart a b ∧ estimationWindowEnd a b < (tgt.length : ℤ) then
    some (iterationRecords tgt ref b a 1,
          iterationCAR tgt ref b a 1, iterationAAR tgt ref b a 1)
  else none

/-! ### Concrete test data -/

/-- A 31-point reference series 0, 1, ..., 30. -/
def refW : List ℚ :=
  [0, 1, 2, 3, 4, 5, 6, 7, 8, 9, 10, 11, 12, 13, 14, 15, 16, 17, 18, 19, 20,
   21, 22, 23, 24, 25, 26, 27, 28, 29, 30]

/-- The matching 31-point target series with the exact linear relationship
`target = 2 + 3 * reference`. -/
def tgtW : List ℚ :=
  [2, 5, 8, 11, 14, 17, 20, 23, 26, 29, 32, 35, 38, 41, 44, 47, 50, 53, 56,
   59, 62, 65, 68, 71, 74, 77, 80, 83, 86, 89, 92]

/-- A 30-point series 0, 1, ..., 29. -/
def series30 : List ℚ :=
  [0, 1, 2, 3, 4, 5, 6, 7, 8, 9, 10, 11, 12, 13, 14, 15, 16, 17, 18, 19, 20,
   21, 22, 23, 24, 25, 26, 27, 28, 29]

/-- A 79-point series 0, 1, ..., 78. -/
def series79 : List ℚ :=
  [0, 1, 2, 3, 4, 5, 6, 7, 8, 9, 10, 11, 12, 13, 14, 15, 16, 17, 18, 19, 20,
   21, 22, 23, 24, 25, 26, 27, 28, 29, 30, 31, 32, 33, 34, 35, 36, 37, 38,
   39, 40, 41, 42, 43, 44, 45, 46, 47, 48, 49, 50, 51, 52, 53, 54, 55, 56,
   57, 58, 59, 60, 61, 62, 63, 64, 65, 66, 67, 68, 69, 70, 71, 72, 73, 74,
   75, 76, 77, 78]

/-! ### Facts about the Python primitives -/

theorem mem_pyRange {lo hi i : ℤ} : i ∈ pyRange lo hi ↔ lo ≤ i ∧ i < hi := by
  unfold pyRange
  rw [List.mem_map]
  constructor
  · rintro ⟨j, hj, rfl⟩
    rw [List.mem_range] at hj
    omega
  · intro h
    refine ⟨(i - lo).toNat, ?_, ?_⟩
    · rw [List.mem_range]
      omega
    · omega

theorem length_pyRange (lo hi : ℤ) : (pyRange lo hi).length = (hi - lo).toNat := by
  unfold pyRange
  rw [List.length_map, List.length_range]

theorem length_pySlice (xs : List ℚ) {s e : ℤ} (hs : 0 ≤ s) (hse : s ≤ e)
    (he : e ≤ (xs.length : ℤ)) : (pySlice xs s e).length = (e - s).toNat := by
  simp only [pySlice, pyResolve, List.length_take, List.length_drop]
  split_ifs <;> omega

theorem isSome_pyGet {xs : List ℚ} {i : ℤ} (h0 : 0 ≤ i)
    (hn : i < (xs.length : ℤ)) : (pyGet xs i).isSome := by
  unfold pyGet
  rw [if_pos h0]
  rw [List.getElem?_eq_getElem (by omega)]
  rfl

/-! ### Facts about the iteration bookkeeping -/

theorem aAt_le_maxA {n b c : ℤ} {k : ℕ} (hk : (k : ℤ) < clampedC n b c) :
    aAt b (k : ℤ) ≤ maxA n b := by
  unfold clampedC minA maxA at hk
  unfold aAt minA maxA
  split at hk <;> omega

theorem iterationRecords_of_reg {tgt ref : List ℚ} {b a it : ℤ} {p : RegQ}
    (hreg : estReg tgt ref b a = some p) :
    iterationRecords tgt ref b a it =
      (eventIdxs a b).map (mkRecord tgt ref b a it p) := by
  unfold iterationRecords
  rw [hreg]

theorem mem_allResults {tgt ref : List ℚ} {b c : ℤ} {r : ARRecord} (k : ℕ)
    (hk : k < (clampedC (tgt.length : ℤ) b c).toNat)
    (hr : r ∈ iterationRecords tgt ref b (aAt b (k : ℤ)) ((k : ℤ) + 1)) :
    r ∈ allResults tgt ref b c := by
  unfold allResults
  rw [List.mem_flatten]
  exact ⟨iterationRecords tgt ref b (aAt b (k : ℤ)) ((k : ℤ) + 1),
    List.mem_map.mpr ⟨k, List.mem_range.mpr hk, rfl⟩, hr⟩

theorem tStat_def (r : ARRecord) :
    r.tStat = if r.stdErr ≠ 0 then (r.ar : ℝ) / r.stdErr else 0 := rfl

theorem mem_allParams {tgt ref : List ℚ} {b c : ℤ} {q : ParamRec} (k : ℕ)
    (hk : k < (clampedC (tgt.length : ℤ) b c).toNat)
    (hq : paramRec tgt ref b (aAt b (k : ℤ)) ((k : ℤ) + 1) = some q) :
    q ∈ allParams tgt ref b c :=
  List.mem_filterMap.mpr ⟨k, List.mem_range.mpr hk, hq⟩

/-- The regression of `tgtW` on `refW` over the estimation window of event
pointer 0 with `b = 0` is an exact linear fit: slope 3, intercept 2,
`R² = 1`, zero standard error. -/
theorem estReg_tgtW_refW : estReg tgtW refW 0 0 = some ⟨3, 2, 1, 0⟩ := by
  have h1 : estSlice refW 0 0 =
      ([1, 2, 3, 4, 5, 6, 7, 8, 9, 10, 11, 12, 13, 14, 15, 16, 17, 18, 19,
        20, 21, 22, 23, 24, 25, 26, 27, 28, 29, 30] : List ℚ) := rfl
  have h2 : estSlice tgtW 0 0 =
      ([5, 8, 11, 14, 17, 20, 23, 26, 29, 32, 35, 38, 41, 44, 47, 50, 53, 56,
        59, 62, 65, 68, 71, 74, 77, 80, 83, 86, 89, 92] : List ℚ) := rfl
  unfold estReg
  rw [h1, h2]
  unfold linregress
  rw [if_neg (by decide), if_neg (by decide)]
  norm_num [List.zip_cons_cons, List.sum_cons]

/-! ### The claims -/

/-- C4: for every valid `(a, b, n)` with `b ≥ 0`, `a - b ≥ 0` and
`a + b + 30 < n`, the event window `[a-b, a+b]` used by the computation has
length `2b+1`, the estimation window sliced from a series of length `n`
has length exactly 30, the two windows are disjoint, and the estimation
window starts exactly one index after the event window ends. The slice
statement is proved for an arbitrary series `xs`, hence it covers both the
target and the reference series. -/
theorem spec_C4 (xs : List ℚ) (a b : ℤ) (hb : 0 ≤ b)
    (h1 : 0 ≤ eventWindowStart a b)
    (h2 : estimationWindowEnd a b < (xs.length : ℤ)) :
    ((eventIdxs a b).length : ℤ) = 2 * b + 1 ∧
    (estSlice xs a b).length = 30 ∧
    (∀ i, i ∈ eventIdxs a b → i ∉ estIdxs a b) ∧
    estimationWindowStart a b = eventWindowEnd a b + 1 := by
  unfold eventWindowStart at h1
  unfold estimationWindowEnd at h2
  refine ⟨?_, ?_, ?_, rfl⟩
  · rw [eventIdxs, length_pyRange]
    unfold eventWindowStart eventWindowEnd
    omega
  · rw [estSlice, length_pySlice xs (by unfold estimationWindowStart; omega)
      (by unfold estimationWindowStart estimationWindowEnd; omega)
      (by unfold estimationWindowEnd; omega)]
    unfold estimationWindowStart estimationWindowEnd
    omega
  · intro i hi hi2
    rw [eventIdxs, mem_pyRange] at hi
    rw [estIdxs, mem_pyRange] at hi2
    unfold eventWindowStart eventWindowEnd at hi
    unfold estimationWindowStart estimationWindowEnd at hi2
    omega

theorem spec_C4_witness :
    ((eventIdxs 0 0).length : ℤ) = 2 * 0 + 1 ∧
    (estSlice refW 0 0).length = 30 ∧
    (∀ i, i ∈ eventIdxs 0 0 → i ∉ estIdxs 0 0) ∧
    estimationWindowStart 0 0 = eventWindowEnd 0 0 + 1 :=
  spec_C4 refW 0 0 (by decide) (by decide) (by decide)

/-- C5: the feasible range of the event pointer is `[b, n - b - 31]`
(`minA`/`maxA` mirror lines 47-48), iteration `k` uses `a = b + k`, and
when `b + c - 1` exceeds `n - b - 31` the iteration count is clamped to
`n - 2b - 30`, the clamp is reported, and the last executed event pointer
is exactly `maxA n b`. Instantiated at `n = 200, b = 5, c = 200` by the
witness: feasible range `[5, 164]`, 160 iterations, ending at `a = 164`. -/
theorem spec_C5 (n b c : ℤ) (hclamp : minA b + c - 1 > maxA n b) :
    clampedC n b c = n - 2 * b - 30 ∧
    clampReported n b c = true ∧
    minA b = b ∧ maxA n b = n - b - 31 ∧
    (∀ k : ℤ, aAt b k = b + k) ∧
    aAt b (clampedC n b c - 1) = maxA n b := by
  have hc : clampedC n b c = n - 2 * b - 30 := by
    unfold clampedC
    rw [if_pos hclamp]
    unfold minA maxA
    ring
  refine ⟨hc, ?_, rfl, rfl, fun k => rfl, ?_⟩
  · unfold clampReported
    exact decide_eq_true hclamp
  · rw [hc]
    unfold aAt minA maxA
    ring

theorem spec_C5_witness :
    clampedC 200 5 200 = 200 - 2 * 5 - 30 ∧
    clampReported 200 5 200 = true ∧
    minA 5 = 5 ∧ maxA 200 5 = 200 - 5 - 31 ∧
    (∀ k : ℤ, aAt 5 k = 5 + k) ∧
    aAt 5 (clampedC 200 5 200 - 1) = maxA 200 5 :=
  spec_C5 200 5 200 (by decide)

/-- C7: when no valid starting point exists, i.e. `min_a > max_a`
(equivalently `b > n - b - 31`), the iterative run reports the failure and
aborts before any iteration runs: the run's value is the error, and both
output collections are empty. -/
theorem spec_C7 (tgt ref : List ℚ) (b c : ℤ) (_hlen : ref.length = tgt.length)
    (hinf : minA b > maxA (tgt.length : ℤ) b) :
    run tgt ref b c = Except.error RunError.noFeasibleA ∧
    allResults tgt ref b c = [] ∧ allParams tgt ref b c = [] := by
  have hrn : runError tgt ref b c = some RunError.noFeasibleA := by
    unfold runError
    rw [if_pos hinf]
  have hcl : (clampedC (tgt.length : ℤ) b c).toNat = 0 := by
    unfold minA maxA at hinf
    unfold clampedC minA maxA
    split <;> omega
  refine ⟨?_, ?_, ?_⟩
  · unfold run
    rw [hrn]
  · unfold allResults
    rw [hcl]
    rfl
  · unfold allParams
    rw [hcl]
    rfl

theorem spec_C7_witness :
    run (List.replicate 10 (0 : ℚ)) (List.replicate 10 (0 : ℚ)) 0 1 =
      Except.error RunError.noFeasibleA ∧
    allResults (List.replicate 10 (0 : ℚ)) (List.replicate 10 (0 : ℚ)) 0 1 = [] ∧
    allParams (List.replicate 10 (0 : ℚ)) (List.replicate 10 (0 : ℚ)) 0 1 = [] :=
  spec_C7 (List.replicate 10 (0 : ℚ)) (List.replicate 10 (0 : ℚ)) 0 1 rfl (by decide)

/-- C8: the single-run computation rejects any `(a, b)` whose event window
start `a - b` is negative or whose estimation window end `a + b + 30`
reaches past the series, reporting a validation failure and producing no
output. The single-run source is not under `src/`; `singleRun` is modelled
from the specification's validation invariant. -/
theorem spec_C8 (tgt ref : List ℚ) (a b : ℤ)
    (h : eventWindowStart a b < 0 ∨ (tgt.length : ℤ) ≤ estimationWindowEnd a b) :
    singleRun tgt ref a b = none := by
  unfold singleRun
  rw [if_neg]
  unfold eventWindowStart estimationWindowEnd at h ⊢
  omega

theorem spec_C8_witness :
    singleRun (List.replicate 100 (0 : ℚ)) (List.replicate 100 (0 : ℚ)) 5 10 = none ∧
    singleRun (List.replicate 50 (0 : ℚ)) (List.replicate 50 (0 : ℚ)) 30 5 = none :=
  ⟨spec_C8 (List.replicate 100 (0 : ℚ)) (List.replicate 100 (0 : ℚ)) 5 10
      (Or.inl (by decide)),
   spec_C8 (List.replicate 50 (0 : ℚ)) (List.replicate 50 (0 : ℚ)) 30 5
      (Or.inr (by decide))⟩

/-- C9: for every executed iteration `k` of the iterative mode with
`b ≥ 0` (after the feasible-range check and clamp), every series index the
iteration accesses — the event-window indices and the estimation-window
indices — lies within `[0, n)`, so the access to either series succeeds. -/
theorem spec_C9 (tgt ref : List ℚ) (b c : ℤ) (k : ℕ) (i : ℤ)
    (hlen : ref.length = tgt.length) (hb : 0 ≤ b)
    (hk : (k : ℤ) < clampedC (tgt.length : ℤ) b c)
    (hi : i ∈ eventIdxs (aAt b (k : ℤ)) b ∨ i ∈ estIdxs (aAt b (k : ℤ)) b) :
    0 ≤ i ∧ i < (tgt.length : ℤ) ∧ (pyGet tgt i).isSome ∧ (pyGet ref i).isSome := by
  have hmax : aAt b (k : ℤ) ≤ maxA (tgt.length : ℤ) b := aAt_le_maxA hk
  unfold aAt minA at hmax
  unfold maxA at hmax
  have hbounds : 0 ≤ i ∧ i < (tgt.length : ℤ) := by
    rcases hi with hi | hi
    · rw [eventIdxs, mem_pyRange] at hi
      unfold eventWindowStart eventWindowEnd aAt minA at hi
      omega
    · rw [estIdxs, mem_pyRange] at hi
      unfold estimationWindowStart estimationWindowEnd aAt minA at hi
      omega
  refine ⟨hbounds.1, hbounds.2, isSome_pyGet hbounds.1 hbounds.2, ?_⟩
  refine isSome_pyGet hbounds.1 ?_
  rw [hlen]
  exact hbounds.2

theorem spec_C9_witness :
    0 ≤ (0 : ℤ) ∧ (0 : ℤ) < (tgtW.length : ℤ) ∧
    (pyGet tgtW 0).isSome ∧ (pyGet refW 0).isSome :=
  spec_C9 tgtW refW 0 1 0 0 (by decide) (by decide) (by decide) (Or.inl (by decide))

/-- C1: for every pair of series, every `b ≥ 0`, every executed event
pointer `a = minA b + k` (an `a` of the feasible range), and every index
`i` of the event window, the run's output contains a record for iteration
`k` at index `i` whose expected return is `intercept + slope * reference(i)`
and whose abnormal return is `target(i) - expected`, where `intercept` and
`slope` are the ordinary least squares fit (`linregress`) of the target
series on the reference series over the estimation window
`[a+b+1, a+b+30]`. -/
theorem spec_C1 (tgt ref : List ℚ) (b c : ℤ) (k : ℕ) (i : ℤ) (p : RegQ)
    (_hb : 0 ≤ b)
    (hk : (k : ℤ) < clampedC (tgt.length : ℤ) b c)
    (hreg : estReg tgt ref b (aAt b (k : ℤ)) = some p)
    (hi : i ∈ eventIdxs (aAt b (k : ℤ)) b) :
    ∃ r ∈ allResults tgt ref b c,
      r.iteration = (k : ℤ) + 1 ∧ r.a = aAt b (k : ℤ) ∧ r.idx = i ∧
      r.reference = pyGetD ref i ∧ r.target = pyGetD tgt i ∧
      r.expected = p.intercept + p.slope * pyGetD ref i ∧
      r.ar = pyGetD tgt i - r.expected := by
  refine ⟨mkRecord tgt ref b (aAt b (k : ℤ)) ((k : ℤ) + 1) p i, ?_,
    rfl, rfl, rfl, rfl, rfl, rfl, rfl⟩
  refine mem_allResults k (by omega) ?_
  rw [iterationRecords_of_reg hreg]
  exact List.mem_map_of_mem _ hi

theorem spec_C1_witness :
    ∃ r ∈ allResults tgtW refW 0 1,
      r.iteration = ((0 : ℕ) : ℤ) + 1 ∧ r.a = aAt 0 ((0 : ℕ) : ℤ) ∧ r.idx = 0 ∧
      r.reference = pyGetD refW 0 ∧ r.target = pyGetD tgtW 0 ∧
      r.expected = 2 + 3 * pyGetD refW 0 ∧
      r.ar = pyGetD tgtW 0 - r.expected :=
  spec_C1 tgtW refW 0 1 0 0 ⟨3, 2, 1, 0⟩ (by decide) (by decide)
    estReg_tgtW_refW (by decide)

/-- C2: every record of the run carries the t-statistic
`t = ar / SE if SE ≠ 0 else 0` computed from the same standard error `SE`
that is stored in the regression-parameter record of its iteration; in
particular the t-statistic is exactly 0 when `SE` is exactly 0, and no
division by zero occurs (the division is only taken under `SE ≠ 0`). -/
theorem spec_C2 (tgt ref : List ℚ) (b c : ℤ) (k : ℕ) (i : ℤ) (p : RegQ)
    (_hb : 0 ≤ b)
    (hk : (k : ℤ) < clampedC (tgt.length : ℤ) b c)
    (hreg : estReg tgt ref b (aAt b (k : ℤ)) = some p)
    (hi : i ∈ eventIdxs (aAt b (k : ℤ)) b) :
    ∃ r ∈ allResults tgt ref b c, ∃ q ∈ allParams tgt ref b c,
      r.iteration = (k : ℤ) + 1 ∧ q.iteration = (k : ℤ) + 1 ∧ r.idx = i ∧
      (q.stdErr ≠ 0 → r.tStat = (r.ar : ℝ) / q.stdErr) ∧
      (q.stdErr = 0 → r.tStat = 0) := by
  have hse : (mkRecord tgt ref b (aAt b (k : ℤ)) ((k : ℤ) + 1) p i).stdErr =
      ParamRec.stdErr ⟨(k : ℤ) + 1, aAt b (k : ℤ), b, p.intercept, p.slope,
        p.sqStdErr, p.rSquared⟩ := rfl
  refine ⟨mkRecord tgt ref b (aAt b (k : ℤ)) ((k : ℤ) + 1) p i, ?_,
    ⟨(k : ℤ) + 1, aAt b (k : ℤ), b, p.intercept, p.slope, p.sqStdErr, p.rSquared⟩,
    ?_, rfl, rfl, rfl, ?_, ?_⟩
  · refine mem_allResults k (by omega) ?_
    rw [iterationRecords_of_reg hreg]
    exact List.mem_map_of_mem _ hi
  · refine mem_allParams k (by omega) ?_
    unfold paramRec
    rw [hreg]
    rfl
  · intro hne
    rw [tStat_def, hse, if_pos hne]
  · intro hz
    rw [tStat_def, hse, if_neg (not_not_intro hz)]

theorem spec_C2_witness :
    ∃ r ∈ allResults tgtW refW 0 1, ∃ q ∈ allParams tgtW refW 0 1,
      r.iteration = ((0 : ℕ) : ℤ) + 1 ∧ q.iteration = ((0 : ℕ) : ℤ) + 1 ∧ r.idx = 0 ∧
      (q.stdErr ≠ 0 → r.tStat = (r.ar : ℝ) / q.stdErr) ∧
      (q.stdErr = 0 → r.tStat = 0) :=
  spec_C2 tgtW refW 0 1 0 0 ⟨3, 2, 1, 0⟩ (by decide) (by decide)
    estReg_tgtW_refW (by decide)

/-- C3: for every executed iteration, the printed cumulative abnormal
return `CAR` equals the exact sum of the abnormal returns over all event
window indices of that iteration, and the printed average abnormal return
`AAR` equals `CAR` divided by the event-window length `2b + 1`. -/
theorem spec_C3 (tgt ref : List ℚ) (b c : ℤ) (k : ℕ) (p : RegQ)
    (hb : 0 ≤ b)
    (_hk : (k : ℤ) < clampedC (tgt.length : ℤ) b c)
    (hreg : estReg tgt ref b (aAt b (k : ℤ)) = some p) :
    iterationCAR tgt ref b (aAt b (k : ℤ)) ((k : ℤ) + 1) =
      ((eventIdxs (aAt b (k : ℤ)) b).map
        (fun i => pyGetD tgt i - (p.intercept + p.slope * pyGetD ref i))).sum ∧
    iterationAAR tgt ref b (aAt b (k : ℤ)) ((k : ℤ) + 1) =
      iterationCAR tgt ref b (aAt b (k : ℤ)) ((k : ℤ) + 1) / ((2 * b + 1 : ℤ) : ℚ) := by
  have hlist : iterationARList tgt ref b (aAt b (k : ℤ)) ((k : ℤ) + 1) =
      (eventIdxs (aAt b (k : ℤ)) b).map
        (fun i => pyGetD tgt i - (p.intercept + p.slope * pyGetD ref i)) := by
    unfold iterationARList
    rw [iterationRecords_of_reg hreg, List.map_map]
    rfl
  have hlen : (((iterationARList tgt ref b (aAt b (k : ℤ)) ((k : ℤ) + 1)).length : ℕ) : ℚ) =
      ((2 * b + 1 : ℤ) : ℚ) := by
    rw [hlist, List.length_map, eventIdxs, length_pyRange]
    have h1 : ((eventWindowEnd (aAt b (k : ℤ)) b + 1 -
        eventWindowStart (aAt b (k : ℤ)) b).toNat : ℤ) = 2 * b + 1 := by
      unfold eventWindowStart eventWindowEnd
      omega
    exact_mod_cast h1
  constructor
  · unfold iterationCAR
    rw [hlist]
  · unfold iterationAAR
    rw [hlen]

theorem spec_C3_witness :
    iterationCAR tgtW refW 0 (aAt 0 ((0 : ℕ) : ℤ)) (((0 : ℕ) : ℤ) + 1) =
      ((eventIdxs (aAt 0 ((0 : ℕ) : ℤ)) 0).map
        (fun i => pyGetD tgtW i - (2 + 3 * pyGetD refW i))).sum ∧
    iterationAAR tgtW refW 0 (aAt 0 ((0 : ℕ) : ℤ)) (((0 : ℕ) : ℤ) + 1) =
      iterationCAR tgtW refW 0 (aAt 0 ((0 : ℕ) : ℤ)) (((0 : ℕ) : ℤ) + 1) /
        ((2 * 0 + 1 : ℤ) : ℚ) :=
  spec_C3 tgtW refW 0 1 0 ⟨3, 2, 1, 0⟩ (by decide) (by decide) estReg_tgtW_refW

/-! ### Data loading: origin of the surviving values -/

theorem loadSeries_def (rows : List (Option ℚ × Option ℚ)) :
    loadSeries rows =
      ((dropna (rows.map Prod.fst)).take
         (min (dropna (rows.map Prod.fst)).length (dropna (rows.map Prod.snd)).length),
       (dropna (rows.map Prod.snd)).take
         (min (dropna (rows.map Prod.fst)).length (dropna (rows.map Prod.snd)).length)) :=
  rfl

theorem dropna_origin (col : List (Option ℚ)) (j : ℕ)
    (hj : j < (dropna col).length) :
    ∃ ri v, originRow col j = some ri ∧ col[ri]? = some (some v) ∧
      (dropna col)[j]? = some v := by
  induction col generalizing j with
  | nil => simp [dropna] at hj
  | cons h t ih =>
    cases h with
    | none =>
      obtain ⟨ri, v, h1, h2, h3⟩ := ih j hj
      refine ⟨ri + 1, v, ?_, ?_, h3⟩
      · simp only [originRow, keptRows, List.getElem?_map]
        simp only [originRow] at h1
        rw [h1]
        rfl
      · rw [List.getElem?_cons_succ]
        exact h2
    | some a =>
      cases j with
      | zero =>
        refine ⟨0, a, ?_, ?_, ?_⟩
        · simp [originRow, keptRows]
        · simp
        · show (a :: dropna t)[0]? = some a
          simp
      | succ j =>
        have hj' : j < (dropna t).length := by
          have hd : dropna (some a :: t) = a :: dropna t := rfl
          rw [hd, List.length_cons] at hj
          omega
        obtain ⟨ri, v, h1, h2, h3⟩ := ih j hj'
        refine ⟨ri + 1, v, ?_, ?_, ?_⟩
        · simp only [originRow, keptRows, List.getElem?_cons_succ, List.getElem?_map]
          simp only [originRow] at h1
          rw [h1]
          rfl
        · rw [List.getElem?_cons_succ]
          exact h2
        · show (a :: dropna t)[j + 1]? = some v
          rw [List.getElem?_cons_succ]
          exact h3

theorem keptRows_fst_eq_snd (rows : List (Option ℚ × Option ℚ))
    (h : ∀ p ∈ rows, p.1.isSome = p.2.isSome) :
    keptRows (rows.map Prod.fst) = keptRows (rows.map Prod.snd) := by
  induction rows with
  | nil => rfl
  | cons hd t ih =>
    obtain ⟨x, y⟩ := hd
    have hh : x.isSome = y.isSome := h (x, y) (List.mem_cons_self _ _)
    have ht : ∀ p ∈ t, p.1.isSome = p.2.isSome :=
      fun p hp => h p (List.mem_cons_of_mem _ hp)
    cases x <;> cases y
    · simp only [List.map_cons, keptRows]
      rw [ih ht]
    · simp at hh
    · simp at hh
    · simp only [List.map_cons, keptRows]
      rw [ih ht]

/-- C6 (amended): during loading, missing values are dropped from each
column independently (a missing cell removes only that column's entry, not
the whole row), and the two series are then truncated to the shorter
remaining length; the value at each surviving position `j` of either
series is the `j`-th surviving value of its own column (originating from
row `originRow column j` of the input table), and the two positions `j`
originate from the same row whenever the two columns have their missing
cells in the same rows — but not in general. -/
theorem spec_C6 (rows : List (Option ℚ × Option ℚ)) (j : ℕ)
    (hj : j < (loadSeries rows).1.length) :
    (loadSeries rows).1.length =
      min (dropna (rows.map Prod.fst)).length (dropna (rows.map Prod.snd)).length ∧
    (loadSeries rows).2.length = (loadSeries rows).1.length ∧
    (∃ ri v, originRow (rows.map Prod.fst) j = some ri ∧
      (rows.map Prod.fst)[ri]? = some (some v) ∧ (loadSeries rows).1[j]? = some v) ∧
    (∃ ri v, originRow (rows.map Prod.snd) j = some ri ∧
      (rows.map Prod.snd)[ri]? = some (some v) ∧ (loadSeries rows).2[j]? = some v) ∧
    ((∀ p ∈ rows, p.1.isSome = p.2.isSome) →
      originRow (rows.map Prod.fst) j = originRow (rows.map Prod.snd) j) := by
  simp only [loadSeries_def] at hj ⊢
  rw [List.length_take] at hj
  have hjT : j < (dropna (rows.map Prod.fst)).length := by omega
  have hjR : j < (dropna (rows.map Prod.snd)).length := by omega
  obtain ⟨ri, v, h1, h2, h3⟩ := dropna_origin (rows.map Prod.fst) j hjT
  obtain ⟨ri', v', h1', h2', h3'⟩ := dropna_origin (rows.map Prod.snd) j hjR
  refine ⟨?_, ?_, ⟨ri, v, h1, h2, ?_⟩, ⟨ri', v', h1', h2', ?_⟩, ?_⟩
  · rw [List.length_take]
    omega
  · rw [List.length_take, List.length_take]
    omega
  · rw [List.getElem?_take, if_pos (by omega)]
    exact h3
  · rw [List.getElem?_take, if_pos (by omega)]
    exact h3'
  · intro hsame
    unfold originRow
    rw [keptRows_fst_eq_snd rows hsame]

/-- A two-row table with no missing cells. -/
def rowsW : List (Option ℚ × Option ℚ) := [(some 1, some 10), (some 3, some 30)]

theorem spec_C6_witness :
    (loadSeries rowsW).1.length =
      min (dropna (rowsW.map Prod.fst)).length (dropna (rowsW.map Prod.snd)).length ∧
    (loadSeries rowsW).2.length = (loadSeries rowsW).1.length ∧
    (∃ ri v, originRow (rowsW.map Prod.fst) 0 = some ri ∧
      (rowsW.map Prod.fst)[ri]? = some (some v) ∧ (loadSeries rowsW).1[0]? = some v) ∧
    (∃ ri v, originRow (rowsW.map Prod.snd) 0 = some ri ∧
      (rowsW.map Prod.snd)[ri]? = some (some v) ∧ (loadSeries rowsW).2[0]? = some v) ∧
    ((∀ p ∈ rowsW, p.1.isSome = p.2.isSome) →
      originRow (rowsW.map Prod.fst) 0 = originRow (rowsW.map Prod.snd) 0) :=
  spec_C6 rowsW 0 (by decide)

/-- A three-row table whose target cell is missing in row 1 only. -/
def rowsCx : List (Option ℚ × Option ℚ) :=
  [(some 1, some 10), (none, some 20), (some 3, some 30)]

/-- C6 counterexample: the source calls `.dropna()` on each column
independently (lines 30-31), so a row with a missing target value is not
dropped from the reference series. On `rowsCx` the surviving position 1
holds the target value of input row 2 but the reference value of input
row 1: the loaded series are misaligned, contradicting the claim that
every surviving position pairs values originating from the same row. -/
theorem spec_C6_cx :
    (loadSeries rowsCx).1 = [1, 3] ∧
    (loadSeries rowsCx).2 = [10, 20] ∧
    originRow (rowsCx.map Prod.fst) 1 = some 2 ∧
    originRow (rowsCx.map Prod.snd) 1 = some 1 ∧
    originRow (rowsCx.map Prod.fst) 1 ≠ originRow (rowsCx.map Prod.snd) 1 :=
  ⟨by decide, by decide, rfl, rfl, by decide⟩

/-- C10 counterexample: at the claim's own example `b = -1` (with
`n = 30 ≥ 30`), the run does pass the feasible-range check and the event
window is empty, but the run fails inside `linregress`: the estimation
slice `[-1:29]` of a 30-element array resolves to the empty slice
`[29:29]` under Python's negative-index rule, and `linregress` raises on
empty input — before the AAR division is ever reached. So this input does
not exhibit the division by the zero length claimed. -/
theorem spec_C10_cx :
    minA (-1) ≤ maxA (series30.length : ℤ) (-1) ∧
    eventIdxs (aAt (-1) 0) (-1) = [] ∧
    estSlice series30 (aAt (-1) 0) (-1) = [] ∧
    run series30 series30 (-1) 1 = Except.error (RunError.regressionFailure 0) ∧
    run series30 series30 (-1) 1 ≠ Except.error (RunError.zeroDivAAR 0) := by
  have he : runError series30 series30 (-1) 1 =
      some (RunError.regressionFailure 0) := by decide
  have hrun : run series30 series30 (-1) 1 =
      Except.error (RunError.regressionFailure 0) := by
    unfold run
    rw [he]
  refine ⟨by decide, by decide, by decide, hrun, ?_⟩
  rw [hrun]
  intro hcontra
  exact absurd (Except.error.inj hcontra) (by decide)

/-- C10 (amended): the iterative mode indeed does not validate `b ≥ 0`,
and there is an input with negative `b` that passes the feasible-range
check, yields an empty event window (no abnormal-return records), and
reaches the AAR computation's division by the zero length of the record
list: `b = -40` with `n = 79`, where the estimation slice `[-79:-49]`
wraps to 30 valid elements, so the regression succeeds, the event loop
`range(0, -79)` is empty, and `aar = car / len(ar_list)` divides by zero.
The claim's example `b = -1` with `n ≥ 30` instead fails earlier, inside
the regression (see the counterexample). -/
theorem spec_C10 :
    minA (-40) ≤ maxA (series79.length : ℤ) (-40) ∧
    clampedC (series79.length : ℤ) (-40) 1 = 1 ∧
    eventIdxs (aAt (-40) 0) (-40) = [] ∧
    (estSlice series79 (aAt (-40) 0) (-40)).length = 30 ∧
    run series79 series79 (-40) 1 = Except.error (RunError.zeroDivAAR 0) := by
  have he : runError series79 series79 (-40) 1 =
      some (RunError.zeroDivAAR 0) := by decide
  refine ⟨by decide, by decide, by decide, by decide, ?_⟩
  unfold run
  rw [he]

end EventStudy
